import Mathlib

/-!
Verification of the subspace regenesis tool (`src/main.rs`) against its
design document. The tool resolves a target block, streams every account
entry of that block's state, classifies entries into excluded
(token-grant or endowed) versus new accounts, accumulates a running
total of `free + reserved` over the whole stream, checks the total
against the chain-reported issuance, and writes the new accounts to
`balances_<number>.json`.

Balances are Rust `u128`; arithmetic is modelled on `Nat`, since no
property under study concerns wrap-around and debug builds abort on
overflow. Account identifiers (`AccountId32`, 32 raw bytes with
byte-wise equality) are modelled as a byte-list wrapper; ss58 string
decoding is out of scope in the design and is passed in as an abstract
decode function where needed.
-/

/-- Bytes of one `AccountId32`; equality of identifiers is equality of their
byte forms. -/
structure AccountId where
  bytes : List Nat
deriving DecidableEq, Repr

/-- Balances are `u128` in the source (`type Balance = u128`). -/
abbrev Balance := Nat

/-- Block numbers are `u32` in the source. -/
abbrev BlockNumber := Nat

/-- Block hashes are `H256` values; only their identity matters here. -/
abbrev BlockHash := Nat

/-- Per-account balance data decoded from a stream entry
(`account.data.free`, `account.data.reserved`). -/
structure BalanceRecord where
  free : Balance
  reserved : Balance
deriving DecidableEq, Repr

/-- Decoded stream entry: an account identifier with its balance record. -/
abbrev Entry := AccountId × BalanceRecord

/-- Per-entry total, `account.data.free + account.data.reserved`
(main.rs line 130). -/
def total (r : BalanceRecord) : Balance :=
  r.free + r.reserved

/-- Exclusion test of the loop, mirroring
`token_grants.contains(&account_id) || endowed.contains(&account_id)`
(main.rs line 134). -/
def isExcluded (token_grants endowed : List AccountId) (a : AccountId) : Bool :=
  decide (a ∈ token_grants) || decide (a ∈ endowed)

/-- Mutable state of the `while let` loop: the issuance accumulator
(`total_issuance`, line 122) and the output list (`new_accounts`,
line 114, appended at the end in stream order). -/
structure LoopState where
  total_issuance : Balance
  new_accounts : List (AccountId × Balance)
deriving DecidableEq, Repr

/-- Fatal conditions of the run, named as in the design document. The
source realises them as `assert_eq!` / `panic!` aborts or propagated
errors; each aborts the process with no recovery. -/
inductive RunError where
  | unexpectedReservedBalance
  | issuanceMismatch
  | grantListDecodeFailure
deriving DecidableEq, Repr

/-- Body of the account-stream loop (main.rs lines 124-142), one decoded
entry at a time: add `free + reserved` to the accumulator; skip
token-grant and endowed accounts; otherwise require `total == free`
(the `assert_eq!` of line 139, fatal as `unexpectedReservedBalance`)
and append `(account_id, total)` to `new_accounts`. -/
def streamLoop (token_grants endowed : List AccountId) :
    List Entry → LoopState → Except RunError LoopState
  | [], s => .ok s
  | e :: rest, s =>
    let t := total e.2
    if isExcluded token_grants endowed e.1 then
      streamLoop token_grants endowed rest ⟨s.total_issuance + t, s.new_accounts⟩
    else if t = e.2.free then
      streamLoop token_grants endowed rest
        ⟨s.total_issuance + t, s.new_accounts ++ [(e.1, t)]⟩
    else
      .error .unexpectedReservedBalance

/-- Sum of `free + reserved` over a list of entries. -/
def sumTotals (l : List Entry) : Balance :=
  (l.map (fun e => total e.2)).sum

/-- The new-account pairs a list of entries contributes, in stream order:
the non-excluded entries, each mapped to `(account_id, total)`. -/
def newOf (token_grants endowed : List AccountId) (l : List Entry) :
    List (AccountId × Balance) :=
  (l.filter (fun e => !isExcluded token_grants endowed e.1)).map
    (fun e => (e.1, total e.2))

/-- Non-excluded entries of `l` all carry zero reserved balance. -/
def GoodStream (token_grants endowed : List AccountId) (l : List Entry) : Prop :=
  ∀ e ∈ l, isExcluded token_grants endowed e.1 = false → e.2.reserved = 0

instance (token_grants endowed : List AccountId) (l : List Entry) :
    Decidable (GoodStream token_grants endowed l) := by
  unfold GoodStream
  infer_instance

/-- Output file name, `format!("balances_{}.json", block_header.number())`
(main.rs line 174). -/
def snapshotFileName (n : BlockNumber) : String :=
  "balances_" ++ toString n ++ ".json"

/-- Output path: the current working directory with the snapshot file name
pushed onto it (main.rs lines 173-174), modelled as a component list. -/
def snapshotPath (cwd : List String) (n : BlockNumber) : List String :=
  cwd ++ [snapshotFileName n]

/-- Reconciliation and emission tail of `main` (lines 122-181): run the
stream loop from the empty initial state, compare the accumulator with the
independently fetched `total_issuance` storage value (the `assert_eq!` of
line 150, fatal as `issuanceMismatch`), and only then hand the new-account
list to the emitter under the block-number-derived path. An `Except.error`
result models a process abort with no snapshot artifact. -/
def runPipeline (token_grants endowed : List AccountId) (entries : List Entry)
    (fetched_total_issuance : Balance) (cwd : List String)
    (block_number : BlockNumber) :
    Except RunError (List String × List (AccountId × Balance)) :=
  match streamLoop token_grants endowed entries ⟨0, []⟩ with
  | .error err => .error err
  | .ok s =>
    if s.total_issuance = fetched_total_issuance then
      .ok (snapshotPath cwd block_number, s.new_accounts)
    else
      .error .issuanceMismatch

/-- Fatal conditions of block resolution: the `panic!` of line 77 when the
node has no hash for the requested number, and the `expect` of line 91
when no best hash is returned. -/
inductive ResolveError where
  | blockNotFound (n : BlockNumber)
  | bestHashNotFound
deriving DecidableEq, Repr

/-- Block resolution (main.rs lines 70-92). `rpc_block_hash` models the
node's `chain_getBlockHash` endpoint: `some n` asks for the canonical hash
of block `n`, `none` asks for the current best hash. The first stage
computes `maybe_block_hash`: when `--block-number` is given the hash is
fetched for it (fatal if absent) and `--block-hash` is ignored; otherwise
`--block-hash` is passed through. The second stage falls back to the best
hash when the first produced nothing. -/
def resolveBlockHash (rpc_block_hash : Option BlockNumber → Option BlockHash)
    (cli_block_number : Option BlockNumber) (cli_block_hash : Option BlockHash) :
    Except ResolveError BlockHash :=
  let maybe_block_hash : Except ResolveError (Option BlockHash) :=
    match cli_block_number with
    | some block_number =>
      match rpc_block_hash (some block_number) with
      | some h => .ok (some h)
      | none => .error (.blockNotFound block_number)
    | none => .ok cli_block_hash
  match maybe_block_hash with
  | .error e => .error e
  | .ok (some h) => .ok h
  | .ok none =>
    match rpc_block_hash none with
    | some h => .ok h
    | none => .error .bestHashNotFound

/-- Hardcoded list of token-grant recipient addresses
(main.rs lines 16-34). -/
def TOKEN_GRANTS : List String :=
  ["5Dns1SVEeDqnbSm2fVUqHJPCvQFXHVsgiw28uMBwmuaoKFYi",
   "5DxtHHQL9JGapWCQARYUAWj4yDcwuhg9Hsk5AjhEzuzonVyE",
   "5EHhw9xuQNdwieUkNoucq2YcateoMVJQdN8EZtmRy3roQkVK",
   "5C5qYYCQBnanGNPGwgmv6jiR2MxNPrGnWYLPFEyV1Xdy2P3x",
   "5GBWVfJ253YWVPHzWDTos1nzYZpa9TemP7FpQT9RnxaFN6Sz",
   "5F9tEPid88uAuGbjpyegwkrGdkXXtaQ9sGSWEnYrfVCUCsen",
   "5DkJFCv3cTBsH5y1eFT94DXMxQ3EmVzYojEA88o56mmTKnMp",
   "5G23o1yxWgVNQJuL4Y9UaCftAFvLuMPCRe7BCARxCohjoHc9",
   "5GhHwuJoK1b7uUg5oi8qUXxWHdfgzv6P5CQSdJ3ffrnPRgKM",
   "5EqBwtqrCV427xCtTsxnb9X2Qay39pYmKNk9wD9Kd62jLS97",
   "5D9pNnGCiZ9UqhBQn5n71WFVaRLvZ7znsMvcZ7PHno4zsiYa",
   "5DXfPcXUcP4BG8LBSkJDrfFNApxjWySR6ARfgh3v27hdYr5S",
   "5CXSdDJgzRTj54f9raHN2Z5BNPSMa2ETjqCTUmpaw3ECmwm4",
   "5DqKxL7bQregQmUfFgzTMfRKY4DSvA1KgHuurZWYmxYSCmjY",
   "5CfixiS93yTwHQbzzfn8P2tMxhKXdTx7Jam9htsD7XtiMFtn",
   "5FZe9YzXeEXe7sK5xLR8yCmbU8bPJDTZpNpNbToKvSJBUiEo",
   "5FZwEgsvZz1vpeH7UsskmNmTpbfXvAcojjgVfShgbRqgC1nx"]

/-- Decode of the token-grant list (main.rs lines 107-112): the addresses
are decoded with `filter_map(.. .ok())`, silently dropping failures, and
the subsequent `assert_eq!(token_grants.len(), TOKEN_GRANTS.len())`
aborts (as `grantListDecodeFailure`) whenever any address was dropped.
The ss58 `decode` function itself is an external collaborator. -/
def grantListCheck (decode : String → Option AccountId) :
    Except RunError (List AccountId) :=
  let token_grants := TOKEN_GRANTS.filterMap decode
  if token_grants.length = TOKEN_GRANTS.length then
    .ok token_grants
  else
    .error .grantListDecodeFailure

/-- Straight-line stages of `main`, in source order. -/
inductive Phase where
  | connectClient
  | resolveBlock
  | buildEndowed
  | decodeTokenGrants
  | openAccountStream
  | streamAccounts
  | fetchTotalIssuance
  | fetchHeader
  | printSummary
  | openSnapshotFile
  | writeSnapshot
deriving DecidableEq, Repr, BEq

/-- Program order of the stages of `main`: client build (lines 64-68),
block resolution (70-92), endowed list (94-105), token-grant decode and
length check (107-112), account iterator creation (116-120), the stream
loop (124-142), issuance fetch and check (144-150), header fetch
(152-157), summary printing (159-171), file open (176-179) and snapshot
write (181). -/
def mainPhases : List Phase :=
  [.connectClient, .resolveBlock, .buildEndowed, .decodeTokenGrants,
   .openAccountStream, .streamAccounts, .fetchTotalIssuance, .fetchHeader,
   .printSummary, .openSnapshotFile, .writeSnapshot]

/-- Stages that perform network I/O against the node: the websocket
client build, the block-hash RPCs, the paginated storage iteration, the
issuance storage read and the header RPC. -/
def isNetworkPhase : Phase → Bool
  | .connectClient => true
  | .resolveBlock => true
  | .openAccountStream => true
  | .streamAccounts => true
  | .fetchTotalIssuance => true
  | .fetchHeader => true
  | _ => false

/-- Position of a stage in the program order of `main`. -/
def phaseIdx (p : Phase) : Nat :=
  mainPhases.indexOf p

/-- Flags of `std::fs::OpenOptions`, all initially false. -/
structure OpenOptions where
  append : Bool := false
  create : Bool := false
  create_new : Bool := false
  read : Bool := false
  truncate : Bool := false
  write : Bool := false
deriving DecidableEq, Repr

/-- Fresh options value, `OpenOptions::new()`. -/
def OpenOptions.new : OpenOptions := {}

/-- Builder step `.create(b)`. -/
def OpenOptions.setCreate (o : OpenOptions) (b : Bool) : OpenOptions :=
  { o with create := b }

/-- Builder step `.write(b)`. -/
def OpenOptions.setWrite (o : OpenOptions) (b : Bool) : OpenOptions :=
  { o with write := b }

/-- Options the emitter opens the output path with:
`OpenOptions::new().create(true).write(true)` (main.rs lines 176-179). -/
def snapshotOpenOptions : OpenOptions :=
  (OpenOptions.new.setCreate true).setWrite true

/-- Semantics of opening a file with the given options and writing `data`
from the start, per `std::fs`: without write or append access the open
fails; a missing file is created only when `create` (or `create_new`) is
set; an existing file is replaced when `truncate` is set, appended to
when `append` is set, and otherwise overwritten in place from offset 0,
keeping whatever old bytes lie beyond the written range. `none` models
an open failure / absent result file. -/
def openAndWrite (o : OpenOptions) (existing : Option (List Nat))
    (data : List Nat) : Option (List Nat) :=
  if !(o.write || o.append) then none
  else
    match existing with
    | none => if o.create || o.create_new then some data else none
    | some old =>
      if o.truncate then some data
      else if o.append then some (old ++ data)
      else some (data ++ old.drop data.length)

/-- Hex char count of the account-storage prefix
(`STORAGE_PREFIX_LEN`, main.rs line 13). -/
def STORAGE_PREFIX_LEN : Nat := 64

/-- Hex char count of the blake2_128 key-hash component
(`BLAKE_HASH_LEN`, main.rs line 12). -/
def BLAKE_HASH_LEN : Nat := 32

/-- Lowercase hex digit of a value below 16, as produced by
`hex::encode`. -/
def hexDigit (n : Nat) : Char :=
  if n < 10 then Char.ofNat (48 + n) else Char.ofNat (87 + n)

/-- Hex encoding of a byte list (`hex::encode(&key.0)`): two lowercase
hex chars per byte. -/
def hexEncode : List Nat → List Char
  | [] => []
  | b :: rest => hexDigit (b / 16) :: hexDigit (b % 16) :: hexEncode rest

/-- Outcome of extracting an AccountId from a raw storage key.
`sliceOutOfRange` models the process abort of the Rust string-slice
operation `&s[STORAGE_PREFIX_LEN + BLAKE_HASH_LEN..]` when the index
exceeds the string length; `malformedAccountKey` models the typed error
of line 128 (`map_err(|err| anyhow!(..))?`). -/
inductive KeyDecodeResult where
  | sliceOutOfRange
  | malformedAccountKey
  | decoded (a : AccountId)
deriving DecidableEq, Repr

/-- AccountId extraction from a raw storage key (main.rs lines 125-128):
hex-encode the key bytes, slice off the first
`STORAGE_PREFIX_LEN + BLAKE_HASH_LEN` chars, and parse the remainder as
an AccountId with the external `parse` function (`sp_core`
`AccountId32::from_str`). The slice aborts when the encoded string is
shorter than the slice start; hex chars are single-byte, so no char
boundary issue arises. -/
def decodeAccountKey (parseAccountId : List Char → Option AccountId)
    (key : List Nat) : KeyDecodeResult :=
  let s := hexEncode key
  if s.length < STORAGE_PREFIX_LEN + BLAKE_HASH_LEN then
    .sliceOutOfRange
  else
    match parseAccountId (s.drop (STORAGE_PREFIX_LEN + BLAKE_HASH_LEN)) with
    | some a => .decoded a
    | none => .malformedAccountKey

theorem sumTotals_nil : sumTotals [] = 0 := rfl

theorem sumTotals_cons (e : Entry) (l : List Entry) :
    sumTotals (e :: l) = total e.2 + sumTotals l := by
  simp [sumTotals]

theorem newOf_nil (g en : List AccountId) : newOf g en [] = [] := rfl

theorem newOf_cons_excluded (g en : List AccountId) (e : Entry) (l : List Entry)
    (h : isExcluded g en e.1 = true) :
    newOf g en (e :: l) = newOf g en l := by
  simp [newOf, h]

theorem newOf_cons_new (g en : List AccountId) (e : Entry) (l : List Entry)
    (h : isExcluded g en e.1 = false) :
    newOf g en (e :: l) = (e.1, total e.2) :: newOf g en l := by
  simp [newOf, h]

/-- On a good stream the loop runs to completion, adding the sum of the
totals to the accumulator and appending the filtered entries. -/
theorem streamLoop_ok (g en : List AccountId) :
    ∀ (l : List Entry) (s : LoopState), GoodStream g en l →
      streamLoop g en l s =
        .ok ⟨s.total_issuance + sumTotals l, s.new_accounts ++ newOf g en l⟩
  | [], s, _ => by simp [streamLoop, sumTotals_nil, newOf_nil]
  | e :: rest, s, h => by
    have hrest : GoodStream g en rest := fun x hx => h x (List.mem_cons_of_mem _ hx)
    by_cases hx : isExcluded g en e.1 = true
    · rw [streamLoop, if_pos hx,
        streamLoop_ok g en rest _ hrest, sumTotals_cons,
        newOf_cons_excluded g en e rest hx]
      simp [Nat.add_assoc]
    · have hx' : isExcluded g en e.1 = false := by
        simpa using hx
      have hres : e.2.reserved = 0 := h e (List.mem_cons_self e rest) hx'
      have ht : total e.2 = e.2.free := by
        simp [total, hres]
      rw [streamLoop, if_neg (by simp [hx']), if_pos ht,
        streamLoop_ok g en rest _ hrest, sumTotals_cons,
        newOf_cons_new g en e rest hx']
      simp [Nat.add_assoc]

/-- A stream containing a non-excluded entry with nonzero reserved balance
aborts the loop with `unexpectedReservedBalance`. -/
theorem streamLoop_err (g en : List AccountId) :
    ∀ (l : List Entry) (s : LoopState), ¬ GoodStream g en l →
      streamLoop g en l s = .error .unexpectedReservedBalance
  | [], _, h => by
    exact absurd (fun x hx => absurd hx (List.not_mem_nil x)) h
  | e :: rest, s, h => by
    by_cases hx : isExcluded g en e.1 = true
    · have hrest : ¬ GoodStream g en rest := by
        intro hg
        exact h (fun x hxm => by
          rcases List.mem_cons.mp hxm with hxe | hxr
          · intro hfalse
            rw [hxe] at hfalse
            rw [hfalse] at hx
            cases hx
          · exact hg x hxr)
      rw [streamLoop, if_pos hx]
      exact streamLoop_err g en rest _ hrest
    · have hx' : isExcluded g en e.1 = false := by simpa using hx
      by_cases hr : e.2.reserved = 0
      · have ht : total e.2 = e.2.free := by simp [total, hr]
        have hrest : ¬ GoodStream g en rest := by
          intro hg
          exact h (fun x hxm => by
            rcases List.mem_cons.mp hxm with hxe | hxr
            · intro _
              rw [hxe]
              exact hr
            · exact hg x hxr)
        rw [streamLoop, if_neg (by simp [hx']), if_pos ht]
        exact streamLoop_err g en rest _ hrest
      · have ht : ¬ total e.2 = e.2.free := fun hc =>
          hr (by simpa [total] using hc)
        rw [streamLoop, if_neg (by simp [hx']), if_neg ht]

/-- Characterization of a successful loop run started from the initial
state: the stream is good, the accumulator is the sum of all totals, and
the output is the stream-order filtered map. -/
theorem streamLoop_ok_iff (g en : List AccountId) (l : List Entry) (s : LoopState) :
    streamLoop g en l ⟨0, []⟩ = .ok s ↔
      GoodStream g en l ∧ s = ⟨sumTotals l, newOf g en l⟩ := by
  by_cases h : GoodStream g en l
  · rw [streamLoop_ok g en l ⟨0, []⟩ h]
    constructor
    · intro hok
      refine ⟨h, ?_⟩
      have := (Except.ok.injEq _ _).mp hok
      simp at this
      simp [this]
    · intro ⟨_, hs⟩
      simp [hs]
  · rw [streamLoop_err g en l ⟨0, []⟩ h]
    constructor
    · intro hok
      cases hok
    · intro ⟨hg, _⟩
      exact absurd hg h

theorem hexEncode_length (key : List Nat) :
    (hexEncode key).length = 2 * key.length := by
  induction key with
  | nil => rfl
  | cons b rest ih =>
    simp [hexEncode, ih]
    omega

theorem length_filterMap_eq_length_iff {α β : Type} (f : α → Option β) :
    ∀ l : List α, ((l.filterMap f).length = l.length ↔ ∀ a ∈ l, (f a).isSome)
  | [] => by simp
  | a :: l => by
    cases hfa : f a with
    | none =>
      have hle := List.length_filterMap_le f l
      simp [List.filterMap_cons, hfa]
      omega
    | some b =>
      simp [List.filterMap_cons, hfa]

theorem sumTotals_filter_split (p : Entry → Bool) :
    ∀ l : List Entry,
      sumTotals (l.filter p) + sumTotals (l.filter (fun e => !p e)) = sumTotals l
  | [] => by simp [sumTotals]
  | e :: l => by
    have ih := sumTotals_filter_split p l
    by_cases hp : p e = true
    · rw [List.filter_cons_of_pos (by simp [hp]),
        List.filter_cons_of_neg (by simp [hp]), sumTotals_cons,
        Nat.add_assoc, ih, sumTotals_cons]
    · have hp' : p e = false := by simpa using hp
      rw [List.filter_cons_of_neg (by simp [hp']),
        List.filter_cons_of_pos (by simp [hp']), sumTotals_cons,
        Nat.add_left_comm, ih, sumTotals_cons]

theorem sum_snd_newOf (g en : List AccountId) (l : List Entry) :
    ((newOf g en l).map Prod.snd).sum =
      sumTotals (l.filter (fun e => !isExcluded g en e.1)) := by
  unfold newOf sumTotals
  rw [List.map_map]
  exact rfl

theorem sumTotals_excl_split (g en : List AccountId) (l : List Entry) :
    sumTotals (l.filter (fun e => isExcluded g en e.1)) +
      sumTotals (l.filter (fun e => !isExcluded g en e.1)) = sumTotals l := by
  simpa using sumTotals_filter_split (fun e => isExcluded g en e.1) l

theorem runPipeline_ok_elim (g en : List AccountId) (entries : List Entry)
    (fetched : Balance) (cwd : List String) (n : BlockNumber)
    (out : List String × List (AccountId × Balance))
    (h : runPipeline g en entries fetched cwd n = .ok out) :
    GoodStream g en entries ∧ sumTotals entries = fetched ∧
      out = (snapshotPath cwd n, newOf g en entries) := by
  unfold runPipeline at h
  cases hl : streamLoop g en entries ⟨0, []⟩ with
  | error err =>
    simp only [hl] at h
    cases h
  | ok s =>
    simp only [hl] at h
    obtain ⟨hg, hs⟩ := (streamLoop_ok_iff g en entries s).mp hl
    by_cases hf : s.total_issuance = fetched
    · rw [if_pos hf] at h
      injection h with h'
      refine ⟨hg, ?_, ?_⟩
      · rw [← hf, hs]
      · rw [← h', hs]
    · rw [if_neg hf] at h
      cases h

/-- C1: over any finite decoded stream, the loop accumulator ends at the
sum of `free + reserved` over every entry, excluded ones included; when
that sum differs from the independently fetched chain issuance the run
aborts with `issuanceMismatch` and produces no snapshot (the issuance
check precedes the file open in program order), and when it matches the
run proceeds to emission. -/
theorem c1_issuance_conservation_gate (token_grants endowed : List AccountId)
    (entries : List Entry) (fetched : Balance) (cwd : List String)
    (n : BlockNumber) (s : LoopState)
    (h : streamLoop token_grants endowed entries ⟨0, []⟩ = .ok s) :
    s.total_issuance = sumTotals entries ∧
    (s.total_issuance ≠ fetched →
      runPipeline token_grants endowed entries fetched cwd n =
        .error .issuanceMismatch) ∧
    (s.total_issuance = fetched →
      runPipeline token_grants endowed entries fetched cwd n =
        .ok (snapshotPath cwd n, s.new_accounts)) ∧
    phaseIdx .fetchTotalIssuance < phaseIdx .openSnapshotFile := by
  obtain ⟨hg, hs⟩ := (streamLoop_ok_iff token_grants endowed entries s).mp h
  refine ⟨by rw [hs], ?_, ?_, by decide⟩
  · intro hne
    unfold runPipeline
    simp only [h]
    rw [if_neg hne]
  · intro heq
    unfold runPipeline
    simp only [h]
    rw [if_pos heq]

/-- C1 witness: the worked example of the design document (an excluded
account with free 100 and reserved 5, then new accounts with free 50 and
0) reconciles against a fetched issuance of 155 and emits exactly the
two new accounts, in stream order, under `balances_7.json`. -/
theorem c1_issuance_conservation_gate_witness :
    runPipeline [⟨[10]⟩] [] [(⟨[10]⟩, ⟨100, 5⟩), (⟨[11]⟩, ⟨50, 0⟩), (⟨[12]⟩, ⟨0, 0⟩)]
        155 [] 7 =
      .ok (["balances_7.json"], [(⟨[11]⟩, 50), (⟨[12]⟩, 0)]) :=
  (c1_issuance_conservation_gate [⟨[10]⟩] []
      [(⟨[10]⟩, ⟨100, 5⟩), (⟨[11]⟩, ⟨50, 0⟩), (⟨[12]⟩, ⟨0, 0⟩)] 155 [] 7
      ⟨155, [(⟨[11]⟩, 50), (⟨[12]⟩, 0)]⟩ rfl).2.2.1 (by decide)

/-- C2: a stream holding a non-excluded entry with nonzero reserved
balance makes the loop, and hence the whole pipeline, abort with
`unexpectedReservedBalance` before any emission; every pair of a
successful run's snapshot carries exactly the free balance of a source
record with zero reserved balance; and a single excluded entry with
nonzero reserved balance passes the loop without triggering the check. -/
theorem c2_reserved_balance_gate (token_grants endowed : List AccountId)
    (entries : List Entry) :
    ((∃ e ∈ entries, isExcluded token_grants endowed e.1 = false ∧
        e.2.reserved ≠ 0) →
      streamLoop token_grants endowed entries ⟨0, []⟩ =
          .error .unexpectedReservedBalance ∧
      ∀ fetched cwd n, runPipeline token_grants endowed entries fetched cwd n =
        .error .unexpectedReservedBalance) ∧
    (∀ s, streamLoop token_grants endowed entries ⟨0, []⟩ = .ok s →
      ∀ p ∈ s.new_accounts, ∃ r : BalanceRecord,
        (p.1, r) ∈ entries ∧ p.2 = r.free ∧ r.reserved = 0) ∧
    (∀ (a : AccountId) (r : BalanceRecord),
      isExcluded token_grants endowed a = true →
      streamLoop token_grants endowed [(a, r)] ⟨0, []⟩ = .ok ⟨total r, []⟩) := by
  refine ⟨?_, ?_, ?_⟩
  · intro hex
    have hng : ¬ GoodStream token_grants endowed entries := by
      obtain ⟨e, he, hfalse, hres⟩ := hex
      intro hg
      exact hres (hg e he hfalse)
    have herr := streamLoop_err token_grants endowed entries ⟨0, []⟩ hng
    refine ⟨herr, ?_⟩
    intro fetched cwd n
    unfold runPipeline
    simp only [herr]
  · intro s hok p hp
    obtain ⟨hg, hs⟩ := (streamLoop_ok_iff token_grants endowed entries s).mp hok
    rw [hs] at hp
    simp only [newOf, List.mem_map, List.mem_filter] at hp
    obtain ⟨e, ⟨he, hne⟩, hpe⟩ := hp
    have hres : e.2.reserved = 0 := hg e he (by simpa using hne)
    refine ⟨e.2, ?_, ?_, hres⟩
    · rw [← hpe]
      exact he
    · rw [← hpe]
      simp [total, hres]
  · intro a r hx
    simp [streamLoop, hx]

/-- C2 witness: the failure example of the design document, a
non-excluded account with free 10 and reserved 1, aborts both the loop
and the pipeline with `unexpectedReservedBalance`. -/
theorem c2_reserved_balance_gate_witness :
    streamLoop [⟨[1]⟩] [] [(⟨[2]⟩, ⟨10, 1⟩)] ⟨0, []⟩ =
        .error .unexpectedReservedBalance ∧
    runPipeline [⟨[1]⟩] [] [(⟨[2]⟩, ⟨10, 1⟩)] 11 [] 7 =
        .error .unexpectedReservedBalance := by
  have h := (c2_reserved_balance_gate [⟨[1]⟩] [] [(⟨[2]⟩, ⟨10, 1⟩)]).1
    ⟨(⟨[2]⟩, ⟨10, 1⟩), by decide, by decide, by decide⟩
  exact ⟨h.1, h.2 11 [] 7⟩

/-- C3: classification is a total partition. On a successful run the
snapshot is exactly the stream-order image of the non-excluded entries,
an entry is excluded precisely when its id lies in the token-grant list
or the endowed list and new precisely when it lies in neither, every
excluded entry contributes no snapshot pair, and every new entry
contributes its pair. -/
theorem c3_partition_totality (token_grants endowed : List AccountId)
    (entries : List Entry) (s : LoopState)
    (h : streamLoop token_grants endowed entries ⟨0, []⟩ = .ok s) :
    s.new_accounts = newOf token_grants endowed entries ∧
    (∀ e ∈ entries,
      (isExcluded token_grants endowed e.1 = true ↔
        (e.1 ∈ token_grants ∨ e.1 ∈ endowed)) ∧
      (isExcluded token_grants endowed e.1 = false ↔
        (e.1 ∉ token_grants ∧ e.1 ∉ endowed)) ∧
      (isExcluded token_grants endowed e.1 = true →
        ∀ p ∈ s.new_accounts, p.1 ≠ e.1) ∧
      (isExcluded token_grants endowed e.1 = false →
        (e.1, total e.2) ∈ s.new_accounts)) := by
  obtain ⟨hg, hs⟩ := (streamLoop_ok_iff token_grants endowed entries s).mp h
  have hlist : s.new_accounts = newOf token_grants endowed entries := by
    rw [hs]
  refine ⟨hlist, ?_⟩
  intro e he
  refine ⟨?_, ?_, ?_, ?_⟩
  · simp [isExcluded]
  · simp [isExcluded]
  · intro hx p hp
    rw [hlist] at hp
    simp only [newOf, List.mem_map, List.mem_filter] at hp
    obtain ⟨x, ⟨_, hxne⟩, hpx⟩ := hp
    intro hcontra
    rw [← hpx] at hcontra
    simp only at hcontra
    rw [hcontra] at hxne
    rw [hx] at hxne
    simp at hxne
  · intro hx
    rw [hlist]
    simp only [newOf, List.mem_map, List.mem_filter]
    exact ⟨e, ⟨he, by simp [hx]⟩, rfl⟩

/-- C3 witness: with one token-grant account, one endowed account and one
new account in the stream, the partition statement holds at the computed
snapshot, which contains exactly the new account. -/
theorem c3_partition_totality_witness :
    (⟨31, [(⟨[3]⟩, 6)]⟩ : LoopState).new_accounts =
        newOf [⟨[1]⟩] [⟨[2]⟩] [(⟨[1]⟩, ⟨10, 5⟩), (⟨[2]⟩, ⟨10, 0⟩), (⟨[3]⟩, ⟨6, 0⟩)] ∧
    (∀ e ∈ [((⟨[1]⟩ : AccountId), (⟨10, 5⟩ : BalanceRecord)), (⟨[2]⟩, ⟨10, 0⟩),
        (⟨[3]⟩, ⟨6, 0⟩)],
      (isExcluded [⟨[1]⟩] [⟨[2]⟩] e.1 = true ↔
        (e.1 ∈ [⟨[1]⟩] ∨ e.1 ∈ [⟨[2]⟩])) ∧
      (isExcluded [⟨[1]⟩] [⟨[2]⟩] e.1 = false ↔
        (e.1 ∉ [⟨[1]⟩] ∧ e.1 ∉ [⟨[2]⟩])) ∧
      (isExcluded [⟨[1]⟩] [⟨[2]⟩] e.1 = true →
        ∀ p ∈ (⟨31, [(⟨[3]⟩, 6)]⟩ : LoopState).new_accounts, p.1 ≠ e.1) ∧
      (isExcluded [⟨[1]⟩] [⟨[2]⟩] e.1 = false →
        (e.1, total e.2) ∈ (⟨31, [(⟨[3]⟩, 6)]⟩ : LoopState).new_accounts)) :=
  c3_partition_totality [⟨[1]⟩] [⟨[2]⟩]
    [(⟨[1]⟩, ⟨10, 5⟩), (⟨[2]⟩, ⟨10, 0⟩), (⟨[3]⟩, ⟨6, 0⟩)]
    ⟨31, [(⟨[3]⟩, 6)]⟩ rfl

/-- C4: block resolution is deterministic with number-over-hash
precedence. With `--block-number` given the hash argument is ignored,
the canonical hash for the number is used and its absence is the fatal
`blockNotFound`; with only `--block-hash` given that hash is used
directly; with neither, the best hash is fetched and its absence is
fatal. -/
theorem c4_block_resolution_precedence
    (rpc_block_hash : Option BlockNumber → Option BlockHash)
    (n : BlockNumber) (bh : BlockHash) (anyHash : Option BlockHash) :
    (resolveBlockHash rpc_block_hash (some n) anyHash =
      match rpc_block_hash (some n) with
      | some h => .ok h
      | none => .error (.blockNotFound n)) ∧
    resolveBlockHash rpc_block_hash none (some bh) = .ok bh ∧
    (resolveBlockHash rpc_block_hash none none =
      match rpc_block_hash none with
      | some h => .ok h
      | none => .error .bestHashNotFound) := by
  refine ⟨?_, ?_, ?_⟩
  · cases hr : rpc_block_hash (some n) <;> simp [resolveBlockHash, hr]
  · simp [resolveBlockHash]
  · cases hr : rpc_block_hash none <;> simp [resolveBlockHash, hr]

/-- C5 counterexample: the grant-decode length check does not run before
all network I/O. In the program order of `main` the websocket client
build and the block-hash resolution, both network operations, precede
the token-grant decode of lines 107-112. -/
theorem c5_grant_decode_after_network_io :
    isNetworkPhase Phase.connectClient = true ∧
    phaseIdx .connectClient < phaseIdx .decodeTokenGrants ∧
    isNetworkPhase Phase.resolveBlock = true ∧
    phaseIdx .resolveBlock < phaseIdx .decodeTokenGrants := by
  decide

/-- C5 (amended): the grant-list check succeeds, yielding the decoded
list, exactly when every hardcoded token-grant address decodes (the
decoded list's length then equals the hardcoded list's length), and any
decode failure is fatal as `grantListDecodeFailure`; the check runs
before the account stream is opened and before the snapshot file is
opened, though after the client connection and block resolution. -/
theorem c5_grant_list_length_check (decode : String → Option AccountId) :
    (grantListCheck decode = .ok (TOKEN_GRANTS.filterMap decode) ↔
      ∀ a ∈ TOKEN_GRANTS, (decode a).isSome) ∧
    ((¬ ∀ a ∈ TOKEN_GRANTS, (decode a).isSome) →
      grantListCheck decode = .error .grantListDecodeFailure) ∧
    phaseIdx .decodeTokenGrants < phaseIdx .openAccountStream ∧
    phaseIdx .decodeTokenGrants < phaseIdx .openSnapshotFile := by
  refine ⟨?_, ?_, by decide, by decide⟩
  · by_cases hlen :
      (TOKEN_GRANTS.filterMap decode).length = TOKEN_GRANTS.length
    · simp only [grantListCheck, if_pos hlen]
      simp only [true_iff, Except.ok.injEq]
      exact (length_filterMap_eq_length_iff decode TOKEN_GRANTS).mp hlen
    · simp only [grantListCheck, if_neg hlen]
      constructor
      · intro hcontra
        cases hcontra
      · intro hall
        exact absurd
          ((length_filterMap_eq_length_iff decode TOKEN_GRANTS).mpr hall) hlen
  · intro hnall
    have hlen :
        ¬ (TOKEN_GRANTS.filterMap decode).length = TOKEN_GRANTS.length :=
      fun hl =>
        hnall ((length_filterMap_eq_length_iff decode TOKEN_GRANTS).mp hl)
    simp only [grantListCheck, if_neg hlen]

/-- C5 witness: a decode function that fails on every address makes the
grant-list check abort with `grantListDecodeFailure`. -/
theorem c5_grant_list_length_check_witness :
    grantListCheck (fun _ => none) = .error .grantListDecodeFailure :=
  (c5_grant_list_length_check (fun _ => none)).2.1 (by decide)

/-- C6: the emitter opens the output path with `create` and `write` but
without `truncate`, so an existing longer file keeps its stale trailing
bytes past the newly written snapshot: writing the two bytes `[2, 2]`
over an existing file `[1, 1, 1, 1]` leaves `[2, 2, 1, 1]`, not the
snapshot bytes alone, contradicting the specified
create-or-truncate behavior. A missing file is created with exactly the
snapshot bytes. -/
theorem c6_snapshot_open_keeps_stale_bytes :
    snapshotOpenOptions.create = true ∧
    snapshotOpenOptions.write = true ∧
    snapshotOpenOptions.truncate = false ∧
    openAndWrite snapshotOpenOptions none [2, 2] = some [2, 2] ∧
    openAndWrite snapshotOpenOptions (some [1, 1, 1, 1]) [2, 2] =
      some [2, 2, 1, 1] ∧
    openAndWrite snapshotOpenOptions (some [1, 1, 1, 1]) [2, 2] ≠
      some [2, 2] := by
  decide

/-- C7: a successful run emits exactly the non-excluded stream entries,
in stream order, each as its `(account_id, total)` pair, into the file
`balances_<number>.json` pushed onto the current working directory. -/
theorem c7_snapshot_stream_order_and_name (token_grants endowed : List AccountId)
    (entries : List Entry) (fetched : Balance) (cwd : List String)
    (n : BlockNumber) (out : List String × List (AccountId × Balance))
    (h : runPipeline token_grants endowed entries fetched cwd n = .ok out) :
    out.2 = (entries.filter (fun e => !isExcluded token_grants endowed e.1)).map
        (fun e => (e.1, total e.2)) ∧
    out.1 = cwd ++ ["balances_" ++ toString n ++ ".json"] := by
  obtain ⟨_, _, hout⟩ :=
    runPipeline_ok_elim token_grants endowed entries fetched cwd n out h
  rw [hout]
  exact ⟨rfl, rfl⟩

/-- C7 witness: a two-entry stream with one excluded account emits the
single new pair under `balances_42.json` inside the working directory
`["work"]`. -/
theorem c7_snapshot_stream_order_and_name_witness :
    ((["work", "balances_42.json"], [((⟨[5]⟩ : AccountId), (7 : Balance))]).2 =
      ([((⟨[4]⟩ : AccountId), (⟨1, 2⟩ : BalanceRecord)), (⟨[5]⟩, ⟨7, 0⟩)].filter
          (fun e => !isExcluded [⟨[4]⟩] [] e.1)).map
        (fun e => (e.1, total e.2))) ∧
    (["work", "balances_42.json"],
        [((⟨[5]⟩ : AccountId), (7 : Balance))]).1 =
      ["work"] ++ ["balances_" ++ toString 42 ++ ".json"] :=
  c7_snapshot_stream_order_and_name [⟨[4]⟩] []
    [(⟨[4]⟩, ⟨1, 2⟩), (⟨[5]⟩, ⟨7, 0⟩)] 10 ["work"] 42
    (["work", "balances_42.json"], [(⟨[5]⟩, 7)]) rfl

/-- C8: the pipeline is a deterministic function of the classification
inputs: two runs over equal entry sequences and equal fetched issuance
values at the same block produce identical results, and in particular
equal snapshot lists and equal new-account counts. -/
theorem c8_determinism (token_grants endowed : List AccountId)
    (entries1 entries2 : List Entry) (fetched1 fetched2 : Balance)
    (cwd : List String) (n : BlockNumber)
    (hentries : entries1 = entries2) (hfetched : fetched1 = fetched2) :
    runPipeline token_grants endowed entries1 fetched1 cwd n =
      runPipeline token_grants endowed entries2 fetched2 cwd n ∧
    ∀ out1 out2,
      runPipeline token_grants endowed entries1 fetched1 cwd n = .ok out1 →
      runPipeline token_grants endowed entries2 fetched2 cwd n = .ok out2 →
      out1.2 = out2.2 ∧ out1.2.length = out2.2.length := by
  subst hentries
  subst hfetched
  refine ⟨rfl, ?_⟩
  intro out1 out2 h1 h2
  rw [h1] at h2
  injection h2 with h3
  rw [h3]
  exact ⟨rfl, rfl⟩

/-- C8 witness: determinism instantiated at a concrete one-entry run,
giving equal pipelines, equal snapshots and equal counts. -/
theorem c8_determinism_witness :
    runPipeline [] [] [((⟨[9]⟩ : AccountId), (⟨3, 0⟩ : BalanceRecord))] 3 [] 1 =
      runPipeline [] [] [((⟨[9]⟩ : AccountId), (⟨3, 0⟩ : BalanceRecord))] 3 [] 1 ∧
    ∀ out1 out2,
      runPipeline [] [] [((⟨[9]⟩ : AccountId), (⟨3, 0⟩ : BalanceRecord))] 3 [] 1 =
        .ok out1 →
      runPipeline [] [] [((⟨[9]⟩ : AccountId), (⟨3, 0⟩ : BalanceRecord))] 3 [] 1 =
        .ok out2 →
      out1.2 = out2.2 ∧ out1.2.length = out2.2.length :=
  c8_determinism [] [] [(⟨[9]⟩, ⟨3, 0⟩)] [(⟨[9]⟩, ⟨3, 0⟩)] 3 3 [] 1 rfl rfl

/-- C9: extracting the AccountId from a raw storage key shorter than 48
bytes (so its hex encoding is shorter than the 96-char slice start)
aborts on the out-of-range string slice instead of reaching the typed
error, while for keys of at least 48 bytes the slice succeeds and the
typed `malformedAccountKey` error arises exactly when the hex suffix
fails to parse as an AccountId. -/
theorem c9_short_key_slice_abort (parseAccountId : List Char → Option AccountId)
    (key : List Nat) :
    (key.length < 48 →
      decodeAccountKey parseAccountId key = .sliceOutOfRange) ∧
    (48 ≤ key.length →
      decodeAccountKey parseAccountId key ≠ .sliceOutOfRange ∧
      (decodeAccountKey parseAccountId key = .malformedAccountKey ↔
        parseAccountId
          ((hexEncode key).drop (STORAGE_PREFIX_LEN + BLAKE_HASH_LEN)) =
          none)) := by
  have hlen : (hexEncode key).length = 2 * key.length := hexEncode_length key
  constructor
  · intro hshort
    unfold decodeAccountKey
    rw [if_pos]
    rw [hlen]
    unfold STORAGE_PREFIX_LEN BLAKE_HASH_LEN
    omega
  · intro hlong
    have hge : ¬ (hexEncode key).length < STORAGE_PREFIX_LEN + BLAKE_HASH_LEN := by
      rw [hlen]
      unfold STORAGE_PREFIX_LEN BLAKE_HASH_LEN
      omega
    unfold decodeAccountKey
    rw [if_neg hge]
    cases hp : parseAccountId
        ((hexEncode key).drop (STORAGE_PREFIX_LEN + BLAKE_HASH_LEN)) with
    | none => simp
    | some a => simp

/-- C9 witness: a one-byte key aborts on the slice, and a 48-byte key
whose suffix does not parse reaches the typed `malformedAccountKey`
path. -/
theorem c9_short_key_slice_abort_witness :
    decodeAccountKey (fun _ => none) [0] = .sliceOutOfRange ∧
    decodeAccountKey (fun _ => none) (List.replicate 48 0) ≠ .sliceOutOfRange ∧
    decodeAccountKey (fun _ => none) (List.replicate 48 0) =
      .malformedAccountKey :=
  ⟨(c9_short_key_slice_abort (fun _ => none) [0]).1 (by decide),
   ((c9_short_key_slice_abort (fun _ => none) (List.replicate 48 0)).2
      (by decide)).1,
   ((c9_short_key_slice_abort (fun _ => none) (List.replicate 48 0)).2
      (by decide)).2.mpr rfl⟩

/-- C10: on a successful run the reported total new issuance, the sum of
the snapshot balances, together with the `free + reserved` mass of the
excluded stream entries adds up to the fetched chain issuance, hence
equals the fetched issuance minus the excluded mass: the checked
accumulator includes excluded accounts while the snapshot omits them. -/
theorem c10_new_issuance_algebra (token_grants endowed : List AccountId)
    (entries : List Entry) (fetched : Balance) (cwd : List String)
    (n : BlockNumber) (out : List String × List (AccountId × Balance))
    (h : runPipeline token_grants endowed entries fetched cwd n = .ok out) :
    (out.2.map Prod.snd).sum +
        sumTotals (entries.filter
          (fun e => isExcluded token_grants endowed e.1)) = fetched ∧
    (out.2.map Prod.snd).sum =
      fetched - sumTotals (entries.filter
        (fun e => isExcluded token_grants endowed e.1)) := by
  obtain ⟨_, hsum, hout⟩ :=
    runPipeline_ok_elim token_grants endowed entries fetched cwd n out h
  have hmain : (out.2.map Prod.snd).sum +
      sumTotals (entries.filter
        (fun e => isExcluded token_grants endowed e.1)) = fetched := by
    rw [hout]
    show ((newOf token_grants endowed entries).map Prod.snd).sum +
      sumTotals (entries.filter
        (fun e => isExcluded token_grants endowed e.1)) = fetched
    rw [sum_snd_newOf, Nat.add_comm,
      sumTotals_excl_split token_grants endowed entries, hsum]
  exact ⟨hmain, Nat.eq_sub_of_add_eq hmain⟩

/-- C10 witness: with one excluded entry of mass 15 and one new entry of
mass 6 against a fetched issuance of 21, the snapshot sum is 6 = 21 - 15. -/
theorem c10_new_issuance_algebra_witness :
    (([((⟨[3]⟩ : AccountId), (6 : Balance))].map Prod.snd).sum +
        sumTotals ([((⟨[1]⟩ : AccountId), (⟨10, 5⟩ : BalanceRecord)),
            (⟨[3]⟩, ⟨6, 0⟩)].filter
          (fun e => isExcluded [⟨[1]⟩] [] e.1)) = 21) ∧
    ([((⟨[3]⟩ : AccountId), (6 : Balance))].map Prod.snd).sum =
      21 - sumTotals ([((⟨[1]⟩ : AccountId), (⟨10, 5⟩ : BalanceRecord)),
          (⟨[3]⟩, ⟨6, 0⟩)].filter
        (fun e => isExcluded [⟨[1]⟩] [] e.1)) :=
  c10_new_issuance_algebra [⟨[1]⟩] []
    [(⟨[1]⟩, ⟨10, 5⟩), (⟨[3]⟩, ⟨6, 0⟩)] 21 []
    3 (["balances_3.json"], [(⟨[3]⟩, 6)]) rfl
